import Mathlib

/-! # timeout-cancel-postgres-query-go-pg: a shallow embedding of `main.go`

The development has three layers.

* The values of `github.com/pkg/errors` (`Errorf`, `WithStack`, `Wrap`, `Wrapf`, `Cause`)
  and the nullable results of Go (`error`, `*pg.DB`) as `Option`s.
* The sequential functions `ConnectToPostgres`, `queryLong`, `queryFast` and the three
  handlers, with the calls into go-pg, echo and logrus recorded in the result.
* `ConnectToPostgresTimeout` as a transition system of its two threads (the caller and the
  goroutine it starts) over a schedule of events.
-/

namespace TimeoutCancel

/-! ## Errors -/

/-- An error value made outside `pkg/errors` (go-pg, net, context): it has no `Cause` method. -/
structure ForeignError where
  msg : String
  deriving DecidableEq, Repr

/-- The Go `error` values the program handles: foreign errors, and the three wrappers of
`pkg/errors` (`fundamental` from `Errorf`, `withStack`, `withMessage`). -/
inductive GoError where
  | foreign (e : ForeignError)
  | fundamental (msg : String)
  | withStack (cause : GoError)
  | withMessage (cause : GoError) (msg : String)
  deriving DecidableEq, Repr

/-- The function `errors.Errorf`: a new error carrying the formatted message. -/
def Errorf (msg : String) : GoError := .fundamental msg

/-- The function `errors.WithStack`: nil stays nil, anything else gets a stack. -/
def WithStack : Option GoError → Option GoError
  | none => none
  | some err => some (.withStack err)

/-- The function `errors.Wrap`: nil stays nil, anything else gets the message and a stack. -/
def Wrap : Option GoError → String → Option GoError
  | none, _ => none
  | some err, message => some (.withStack (.withMessage err message))

/-- The function `errors.Wrapf`, the message being already formatted: as `Wrap`. -/
def Wrapf : Option GoError → String → Option GoError
  | none, _ => none
  | some err, message => some (.withStack (.withMessage err message))

/-- The function `errors.Cause`: unwraps while the error has a `Cause` method. -/
def Cause : GoError → GoError
  | .withStack cause => Cause cause
  | .withMessage cause _ => Cause cause
  | err => err

/-! ## The go-pg types -/

/-- A `time.Duration`, in nanoseconds. -/
abbrev Duration := Int

/-- The `pg.Options` that `pg.ParseURL` produces. -/
structure Options where
  Addr : String
  User : String
  Database : String
  deriving DecidableEq, Repr

/-- A `*pg.DB` that is not nil: the options it was opened with, and the identity of the
allocation (`pg.Connect` returns a new pointer on every call). -/
structure DB where
  opt : Options
  ptr : Nat
  deriving DecidableEq, Repr

/-- The record type `Filing`. -/
structure Filing where
  Id : Int
  deriving DecidableEq, Repr

/-- What go-pg answers during one call of `ConnectToPostgres`: the handle `pg.Connect`
allocates and the error (or nil) of `db.Exec`. -/
structure PgWorld where
  Connect : Options → DB
  Exec : DB → String → Option ForeignError

/-- The calls into go-pg, in the order they are made. -/
inductive PgCall where
  | ParseURL (s : String)
  | Connect (opt : Options)
  | Exec (db : DB) (query : String)
  deriving DecidableEq, Repr

/-- The result of `ConnectToPostgres`: the two returned values and the go-pg calls made. -/
structure ConnectResult where
  db : Option DB
  err : Option GoError
  calls : List PgCall
  deriving DecidableEq, Repr

/-- The function `ConnectToPostgres` (main.go, lines 61-82). -/
def ConnectToPostgres (ParseURL : String → Except ForeignError Options) (w : PgWorld)
    (connectionString : String) : ConnectResult :=
  if connectionString = "" then
    { db := none, err := some (Errorf "missing connectionString"), calls := [] }
  else
    match ParseURL connectionString with
    | .error err =>
      { db := none,
        err := Wrap (some (.foreign err))
          ("connecting to postgres with connection string: " ++ connectionString),
        calls := [.ParseURL connectionString] }
    | .ok opt =>
      let db := w.Connect opt
      let calls := [.ParseURL connectionString, .Connect opt, .Exec db "SELECT 1"]
      match (w.Exec db "SELECT 1").map GoError.foreign with
      | some err => { db := none, err := WithStack (some err), calls := calls }
      | none => { db := some db, err := none, calls := calls }

/-! ## The queries -/

/-- A `context.Context`: the request's context with the value of its `Err()`, or one derived
from a parent by `context.WithTimeout`. -/
inductive Ctx where
  | request (err : Option ForeignError)
  | withTimeout (parent : Ctx) (d : Duration)
  deriving DecidableEq, Repr

/-- The two go-pg queries the program runs, as functions of the context and the handle. -/
structure Orm where
  Count : Ctx → DB → Except ForeignError Int
  First : Ctx → DB → Except ForeignError Filing

/-- The lines written through logrus. -/
inductive LogLine where
  | trace (msg : String)
  | infoCount (count : Int)
  | infoFiling (c : Filing)
  | error (err : GoError)
  | errorJSON (err : GoError)
  deriving DecidableEq, Repr

/-- The result of a query function: the two returned values and the lines logged. -/
structure QueryResult where
  val : Int
  err : Option GoError
  logs : List LogLine
  deriving DecidableEq, Repr

/-- The function `queryLong` (main.go, lines 40-48). -/
def queryLong (orm : Orm) (cont : Ctx) (db : DB) : QueryResult :=
  match orm.Count cont db with
  | .error err => { val := 0, err := WithStack (some (.foreign err)), logs := [] }
  | .ok count => { val := count, err := none, logs := [.infoCount count] }

/-- The function `queryFast` (main.go, lines 50-58). -/
def queryFast (orm : Orm) (cont : Ctx) (db : DB) : QueryResult :=
  match orm.First cont db with
  | .error err => { val := 0, err := WithStack (some (.foreign err)), logs := [] }
  | .ok c => { val := c.Id, err := none, logs := [.infoFiling c] }

/-- The error of a context at the time of a query: the request's own, or the deadline of a
derived context that has no time left. -/
def Ctx.err : Ctx → Option ForeignError
  | .request err => err
  | .withTimeout parent d =>
    match parent.err with
    | some e => some e
    | none => if d ≤ 0 then some ⟨"context deadline exceeded"⟩ else none

/-- The behaviour of go-pg on a reachable server whose `filings` table holds `rows`: a done
context fails the query with the context's error, `Count` counts the rows, `First` loads the
first one and fails with `pg.ErrNoRows` when there is none. -/
def tableOrm (rows : List Filing) : Orm where
  Count := fun cont _ =>
    match cont.err with
    | some e => .error e
    | none => .ok rows.length
  First := fun cont _ =>
    match cont.err with
    | some e => .error e
    | none =>
      match rows with
      | [] => .error ⟨"pg: no rows in result set"⟩
      | c :: _ => .ok c

/-! ## The handlers -/

/-- The JSON bodies the handlers write. -/
inductive Body where
  | countTime (count : Int) (time : String)
  | id (id : Int)
  deriving DecidableEq, Repr

/-- The `echo.Context` of a request: the context of the request, the error (or nil) that
`c.JSON` returns for a status and a body, and the text of `time.Since(t1).String()`. -/
structure EchoContext where
  reqCtx : Ctx
  JSON : Int → Body → Option GoError
  elapsed : String

/-- What a handler did: the error it returned, the `c.JSON` calls and the lines logged. -/
structure HandlerResult where
  ret : Option GoError
  written : List (Int × Body)
  logs : List LogLine
  deriving DecidableEq, Repr

/-- The tail common to the three handlers: log the query error, write the body with status
200, log and return the error of the write. -/
def respond (c : EchoContext) (start : LogLine) (q : QueryResult) (body : Body) :
    HandlerResult :=
  let logs := [start] ++ q.logs ++
    (match q.err with
     | some err => [LogLine.error err]
     | none => [])
  match c.JSON 200 body with
  | some err => { ret := some err, written := [(200, body)], logs := logs ++ [.errorJSON err] }
  | none => { ret := none, written := [(200, body)], logs := logs }

/-- The function `handlerLong` (main.go, lines 140-152). -/
def handlerLong (orm : Orm) (db : DB) (c : EchoContext) : HandlerResult :=
  let q := queryLong orm c.reqCtx db
  respond c (.trace "hello handlerLong started") q (.countTime q.val c.elapsed)

/-- The function `handlerLongTimeout` (main.go, lines 154-167): the query runs under a
context bounded by 30 seconds. -/
def handlerLongTimeout (orm : Orm) (db : DB) (c : EchoContext) : HandlerResult :=
  let ctx := Ctx.withTimeout c.reqCtx (30 * 1000000000)
  let q := queryLong orm ctx db
  respond c (.trace "hello handlerLongTimeout started") q (.countTime q.val c.elapsed)

/-- The function `handlerFast` (main.go, lines 169-180). -/
def handlerFast (orm : Orm) (db : DB) (c : EchoContext) : HandlerResult :=
  let q := queryFast orm c.reqCtx db
  respond c (.trace "hello handlerFast started") q (.id q.val)

/-! ## ConnectToPostgresTimeout -/

/-- The arguments of one call of `ConnectToPostgresTimeout`, with the two pure library
functions it depends on: `pg.ParseURL` and the text of a `time.Duration`. -/
structure Config where
  ParseURL : String → Except ForeignError Options
  durString : Duration → String
  connectionString : String
  timeout : Duration
  retry : Duration

/-- Where the goroutine stands (main.go, lines 92-108): at the `select` on `giveUp`, at the
call of `ConnectToPostgres`, at `time.Sleep(retry)`, at `connected <- true`, or finished. -/
inductive LoopPC where
  | check
  | attempt
  | sleep
  | send
  | exited
  deriving DecidableEq, Repr

/-- Where the caller stands (main.go, lines 109-116): at the `select`, in the timeout branch
before `errors.Wrapf`, in the `connected` branch before `close(giveUp)`, before
`return db, nil`, or returned. -/
inductive CallerPC where
  | select
  | timedOut
  | connected
  | closed
  | returned
  deriving DecidableEq, Repr

/-- The state of one call: the two program counters, the variables `db` and
`connectionError` the two threads share, the channel `giveUp`, the channel of `time.After`,
the returned pair, and two observers: the results of the calls of `ConnectToPostgres` so far
and the arguments of the calls of `time.Sleep` so far. -/
structure State where
  loopPC : LoopPC
  callerPC : CallerPC
  db : Option DB
  connectionError : Option GoError
  giveUpClosed : Bool
  timerFired : Bool
  result : Option (Option DB × Option GoError)
  attemptLog : List ConnectResult
  pauses : List Duration
  deriving DecidableEq, Repr

/-- The state at the `select` of line 109, the goroutine just started. -/
def State.init : State :=
  { loopPC := .check, callerPC := .select, db := none, connectionError := none,
    giveUpClosed := false, timerFired := false, result := none, attemptLog := [],
    pauses := [] }

/-- The number of calls of `ConnectToPostgres` made so far. -/
def State.attempts (s : State) : Nat := s.attemptLog.length

/-- One scheduling decision: the timer of `time.After(timeout)` delivers, the goroutine runs
its next statement (go-pg answering as `w`), the caller's `select` takes the timer branch,
the caller's `select` takes the `connected` branch (together with the goroutine's send, the
channel being unbuffered), or the caller runs its next statement. -/
inductive Event where
  | timer
  | loop (w : PgWorld)
  | recvTimeout
  | recvConnected
  | caller

/-- The text of the timeout error (main.go, line 111). -/
def timeoutMessage (cfg : Config) : String :=
  "timeout " ++ cfg.durString cfg.timeout ++ " connecting to db"

/-- One step of `ConnectToPostgresTimeout` (main.go, lines 92-116); `none` when the event is
not enabled in the state. -/
def step (cfg : Config) (e : Event) (s : State) : Option State :=
  match e with
  | .timer => if s.timerFired then none else some { s with timerFired := true }
  | .loop w =>
    match s.loopPC with
    | .check =>
      if s.giveUpClosed then some { s with loopPC := .exited }
      else some { s with loopPC := .attempt }
    | .attempt =>
      let r := ConnectToPostgres cfg.ParseURL w cfg.connectionString
      some { s with
        db := r.db, connectionError := r.err, attemptLog := s.attemptLog ++ [r],
        loopPC := if r.err.isSome then .sleep else .send }
    | .sleep => some { s with pauses := s.pauses ++ [cfg.retry], loopPC := .check }
    | .send => none
    | .exited => none
  | .recvTimeout =>
    if s.callerPC = .select ∧ s.timerFired then some { s with callerPC := .timedOut }
    else none
  | .recvConnected =>
    if s.callerPC = .select ∧ s.loopPC = .send then
      some { s with callerPC := .connected, loopPC := .exited }
    else none
  | .caller =>
    match s.callerPC with
    | .timedOut =>
      some { s with
        result := some (none, Wrapf s.connectionError (timeoutMessage cfg)),
        callerPC := .returned }
    | .connected => some { s with giveUpClosed := true, callerPC := .closed }
    | .closed => some { s with result := some (s.db, none), callerPC := .returned }
    | .select => none
    | .returned => none

/-- The state a schedule leads to, `none` when one of its events is not enabled. -/
def run (cfg : Config) : List Event → State → Option State
  | [], s => some s
  | e :: es, s => (step cfg e s).bind (run cfg es)

/-- A `pg.ParseURL` for the examples: it accepts the strings starting with `postgres://`. -/
def sampleParseURL (s : String) : Except ForeignError Options :=
  if "postgres://".data.isPrefixOf s.data then .ok { Addr := s, User := "postgres", Database := "postgres" }
  else .error ⟨"pg: invalid scheme"⟩

/-- A go-pg whose server answers the probe; the handle it allocates is number `n`. -/
def worldUp (n : Nat) : PgWorld :=
  { Connect := fun opt => { opt := opt, ptr := n }, Exec := fun _ _ => none }

/-- A go-pg whose server refuses the probe; the handle it allocates is number `n`. -/
def worldDown (n : Nat) : PgWorld :=
  { Connect := fun opt => { opt := opt, ptr := n },
    Exec := fun _ _ => some ⟨"dial tcp: connection refused"⟩ }

/-- A call for the examples: five seconds of timeout, one second between attempts. -/
def sampleConfig (connectionString : String) : Config :=
  { ParseURL := sampleParseURL, durString := fun d => if d = 5000000000 then "5s" else if d = 0 then "0s" else "?",
    connectionString := connectionString, timeout := 5000000000, retry := 1000000000 }


/-! ## The sequential functions -/

/-- The condition under which `ConnectToPostgres` succeeds: the string is not empty,
`pg.ParseURL` accepts it and the probe on the opened handle returns no error. -/
def Connects (ParseURL : String → Except ForeignError Options) (w : PgWorld)
    (connectionString : String) : Prop :=
  connectionString ≠ "" ∧
    ∃ opt, ParseURL connectionString = .ok opt ∧ w.Exec (w.Connect opt) "SELECT 1" = none

theorem connect_err_none_db (ParseURL : String → Except ForeignError Options) (w : PgWorld)
    (cs : String) (h : (ConnectToPostgres ParseURL w cs).err = none) :
    (ConnectToPostgres ParseURL w cs).db ≠ none := by
  unfold ConnectToPostgres at h ⊢
  by_cases hcs : cs = ""
  · simp [hcs] at h
  · cases hp : ParseURL cs with
    | error e => simp [hcs, hp, Wrap] at h
    | ok opt =>
      cases hx : w.Exec (w.Connect opt) "SELECT 1" with
      | none => simp [hcs, hp, hx]
      | some e => simp [hcs, hp, hx, WithStack] at h

/-- Claim C7. `ConnectToPostgres` returns a non-nil handle and a nil error exactly when the
string is non-empty, `pg.ParseURL` accepts it and the probe `SELECT 1` on the opened handle
succeeds (the handle is then the one `pg.Connect` allocated); in every other case it returns
a nil handle and a non-nil error; and for the empty string it makes no call into go-pg. -/
theorem ConnectToPostgres_spec (ParseURL : String → Except ForeignError Options) (w : PgWorld)
    (cs : String) :
    (((ConnectToPostgres ParseURL w cs).db ≠ none ∧ (ConnectToPostgres ParseURL w cs).err = none)
        ↔ Connects ParseURL w cs) ∧
    ((Connects ParseURL w cs ∧
        ∃ opt, ParseURL cs = .ok opt ∧
          (ConnectToPostgres ParseURL w cs).db = some (w.Connect opt) ∧
          (ConnectToPostgres ParseURL w cs).err = none ∧
          (ConnectToPostgres ParseURL w cs).calls =
            [.ParseURL cs, .Connect opt, .Exec (w.Connect opt) "SELECT 1"]) ∨
      (¬ Connects ParseURL w cs ∧
        (ConnectToPostgres ParseURL w cs).db = none ∧
        (ConnectToPostgres ParseURL w cs).err ≠ none)) ∧
    (ConnectToPostgres ParseURL w "").calls = [] ∧
    (ConnectToPostgres ParseURL w "").db = none ∧
    (ConnectToPostgres ParseURL w "").err = some (Errorf "missing connectionString") := by
  refine ⟨?_, ?_, by simp [ConnectToPostgres], by simp [ConnectToPostgres],
    by simp [ConnectToPostgres]⟩
  · unfold Connects ConnectToPostgres
    by_cases hcs : cs = ""
    · simp [hcs]
    · cases hp : ParseURL cs with
      | error e => simp [hcs, Wrap]
      | ok opt =>
        cases hx : w.Exec (w.Connect opt) "SELECT 1" with
        | none => simp [hcs, hx]
        | some e => simp [hcs, hx, WithStack]
  · unfold Connects ConnectToPostgres
    by_cases hcs : cs = ""
    · simp [hcs]
    · cases hp : ParseURL cs with
      | error e => simp [hcs, Wrap]
      | ok opt =>
        cases hx : w.Exec (w.Connect opt) "SELECT 1" with
        | none => simp [hcs, hx]
        | some e => simp [hcs, hx, WithStack]

/-- Claim C8. `queryLong` returns `(0, e)` with `e` non-nil exactly when `Count` fails,
whatever the reason (a done context included), `e` is then the error of `Count` with a stack
and its `Cause` is that error unchanged; when `Count` succeeds with `n` it returns `(n, nil)`,
so that on a live context an empty table gives `(0, nil)` and a table of `K` rows `(K, nil)`. -/
theorem queryLong_spec (orm : Orm) (cont : Ctx) (db : DB) :
    (((queryLong orm cont db).err ≠ none) ↔ ∃ err, orm.Count cont db = .error err) ∧
    ((∃ err, orm.Count cont db = .error err ∧
        (queryLong orm cont db).val = 0 ∧
        (queryLong orm cont db).err = some (.withStack (.foreign err)) ∧
        Cause (.withStack (.foreign err)) = .foreign err) ∨
      (∃ n, orm.Count cont db = .ok n ∧
        (queryLong orm cont db).val = n ∧ (queryLong orm cont db).err = none)) ∧
    (∀ rows : List Filing,
      (∃ e, cont.err = some e ∧
          (queryLong (tableOrm rows) cont db).val = 0 ∧
          (queryLong (tableOrm rows) cont db).err = some (.withStack (.foreign e))) ∨
        (cont.err = none ∧
          (queryLong (tableOrm rows) cont db).val = rows.length ∧
          (queryLong (tableOrm rows) cont db).err = none)) ∧
    ((queryLong (tableOrm []) (.request none) db).val = 0 ∧
      (queryLong (tableOrm []) (.request none) db).err = none) := by
  refine ⟨?_, ?_, ?_, by simp [queryLong, tableOrm, Ctx.err]⟩
  · unfold queryLong
    cases h : orm.Count cont db <;> simp [WithStack]
  · unfold queryLong
    cases h : orm.Count cont db <;> simp [WithStack, Cause]
  · intro rows
    unfold queryLong tableOrm
    cases h : cont.err <;> simp [WithStack, h]

/-- Claim C9. `queryFast` returns `(0, e)` with `e` the error of `First` with a stack
whenever `First` fails, which on a live context includes the table having no row; when
`First` loads the record `r` it returns `(r.Id, nil)`, the identifier of a record of the
table. -/
theorem queryFast_spec (orm : Orm) (cont : Ctx) (db : DB) :
    ((∃ err, orm.First cont db = .error err ∧
        (queryFast orm cont db).val = 0 ∧
        (queryFast orm cont db).err = some (.withStack (.foreign err)) ∧
        Cause (.withStack (.foreign err)) = .foreign err) ∨
      (∃ r, orm.First cont db = .ok r ∧
        (queryFast orm cont db).val = r.Id ∧ (queryFast orm cont db).err = none ∧
        (queryFast orm cont db).logs = [.infoFiling r])) ∧
    ((queryFast (tableOrm []) (.request none) db).val = 0 ∧
      (queryFast (tableOrm []) (.request none) db).err ≠ none) ∧
    (∀ (r : Filing) (rows : List Filing),
      (queryFast (tableOrm (r :: rows)) (.request none) db).err = none ∧
      ∃ c ∈ r :: rows, (queryFast (tableOrm (r :: rows)) (.request none) db).val = c.Id) := by
  refine ⟨?_, by simp [queryFast, tableOrm, Ctx.err, WithStack], ?_⟩
  · unfold queryFast
    cases h : orm.First cont db <;> simp [WithStack, Cause]
  · intro r rows
    simp [queryFast, tableOrm, Ctx.err]

theorem respond_written (c : EchoContext) (start : LogLine) (q : QueryResult) (body : Body) :
    (respond c start q body).written = [(200, body)] ∧
    (respond c start q body).ret = c.JSON 200 body ∧
    (∀ err, q.err = some err → LogLine.error err ∈ (respond c start q body).logs) := by
  unfold respond
  cases h : c.JSON 200 body <;> simp <;> intro err he <;> simp [he]

theorem queryLong_err_val (orm : Orm) (cont : Ctx) (db : DB)
    (h : (queryLong orm cont db).err ≠ none) : (queryLong orm cont db).val = 0 := by
  unfold queryLong at h ⊢
  cases hc : orm.Count cont db <;> simp_all

theorem queryFast_err_val (orm : Orm) (cont : Ctx) (db : DB)
    (h : (queryFast orm cont db).err ≠ none) : (queryFast orm cont db).val = 0 := by
  unfold queryFast at h ⊢
  cases hc : orm.First cont db <;> simp_all

/-- Claim C10. Each of `handlerLong`, `handlerLongTimeout` and `handlerFast` calls `c.JSON`
once, with status 200, whatever the query returned; when the query fails the body carries 0
(as count, or as id) and the error of the query is written to the log; and the handler
returns exactly the error (or nil) of that `c.JSON` call, never the error of the query. -/
theorem handlers_respond_200 (orm : Orm) (db : DB) (c : EchoContext) :
    ((handlerLong orm db c).written =
        [(200, .countTime (queryLong orm c.reqCtx db).val c.elapsed)] ∧
      (handlerLong orm db c).ret =
        c.JSON 200 (.countTime (queryLong orm c.reqCtx db).val c.elapsed) ∧
      ((queryLong orm c.reqCtx db).err = none ∨
        ∃ err, (queryLong orm c.reqCtx db).err = some err ∧
          (handlerLong orm db c).written = [(200, .countTime 0 c.elapsed)] ∧
          LogLine.error err ∈ (handlerLong orm db c).logs)) ∧
    ((handlerLongTimeout orm db c).written =
        [(200, .countTime
          (queryLong orm (.withTimeout c.reqCtx 30000000000) db).val c.elapsed)] ∧
      (handlerLongTimeout orm db c).ret =
        c.JSON 200 (.countTime
          (queryLong orm (.withTimeout c.reqCtx 30000000000) db).val c.elapsed) ∧
      ((queryLong orm (.withTimeout c.reqCtx 30000000000) db).err = none ∨
        ∃ err, (queryLong orm (.withTimeout c.reqCtx 30000000000) db).err = some err ∧
          (handlerLongTimeout orm db c).written = [(200, .countTime 0 c.elapsed)] ∧
          LogLine.error err ∈ (handlerLongTimeout orm db c).logs)) ∧
    ((handlerFast orm db c).written = [(200, .id (queryFast orm c.reqCtx db).val)] ∧
      (handlerFast orm db c).ret = c.JSON 200 (.id (queryFast orm c.reqCtx db).val) ∧
      ((queryFast orm c.reqCtx db).err = none ∨
        ∃ err, (queryFast orm c.reqCtx db).err = some err ∧
          (handlerFast orm db c).written = [(200, .id 0)] ∧
          LogLine.error err ∈ (handlerFast orm db c).logs)) := by
  refine ⟨⟨?_, ?_, ?_⟩, ⟨?_, ?_, ?_⟩, ⟨?_, ?_, ?_⟩⟩
  · exact (respond_written _ _ _ _).1
  · exact (respond_written _ _ _ _).2.1
  · cases h : (queryLong orm c.reqCtx db).err with
    | none => exact Or.inl rfl
    | some err =>
      refine Or.inr ⟨err, rfl, ?_, ?_⟩
      · have hv := queryLong_err_val orm c.reqCtx db (by simp [h])
        simp only [handlerLong, hv]
        exact (respond_written _ _ _ _).1
      · exact (respond_written _ _ _ _).2.2 err h
  · exact (respond_written _ _ _ _).1
  · exact (respond_written _ _ _ _).2.1
  · cases h : (queryLong orm (.withTimeout c.reqCtx 30000000000) db).err with
    | none => exact Or.inl rfl
    | some err =>
      refine Or.inr ⟨err, rfl, ?_, ?_⟩
      · have hv := queryLong_err_val orm (.withTimeout c.reqCtx 30000000000) db (by simp [h])
        have h30 : (30 * 1000000000 : Duration) = 30000000000 := by norm_num
        simp only [handlerLongTimeout, h30, hv]
        exact (respond_written _ _ _ _).1
      · have h30 : (30 * 1000000000 : Duration) = 30000000000 := by norm_num
        have := (respond_written c (.trace "hello handlerLongTimeout started")
          (queryLong orm (.withTimeout c.reqCtx 30000000000) db)
          (.countTime (queryLong orm (.withTimeout c.reqCtx 30000000000) db).val
            c.elapsed)).2.2 err h
        simpa only [handlerLongTimeout, h30] using this
  · exact (respond_written _ _ _ _).1
  · exact (respond_written _ _ _ _).2.1
  · cases h : (queryFast orm c.reqCtx db).err with
    | none => exact Or.inl rfl
    | some err =>
      refine Or.inr ⟨err, rfl, ?_, ?_⟩
      · have hv := queryFast_err_val orm c.reqCtx db (by simp [h])
        simp only [handlerFast, hv]
        exact (respond_written _ _ _ _).1
      · exact (respond_written _ _ _ _).2.2 err h


/-! ## Executions of ConnectToPostgresTimeout -/

theorem run_append (cfg : Config) (es fs : List Event) (s : State) :
    run cfg (es ++ fs) s = (run cfg es s).bind (run cfg fs) := by
  induction es generalizing s with
  | nil => simp [run]
  | cons e es ih =>
    simp only [List.cons_append, run]
    cases step cfg e s with
    | none => simp
    | some t => simpa using ih t

theorem run_invariant (cfg : Config) (P : State → Prop)
    (hstep : ∀ e s t, P s → step cfg e s = some t → P t) :
    ∀ (es : List Event) (s t : State), P s → run cfg es s = some t → P t := by
  intro es
  induction es with
  | nil =>
    intro s t hs h
    simp only [run, Option.some.injEq] at h
    exact h ▸ hs
  | cons e es ih =>
    intro s t hs h
    simp only [run] at h
    cases hst : step cfg e s with
    | none => simp [hst] at h
    | some u =>
      rw [hst] at h
      exact ih u t (hstep e s u hs hst) h

/-- The invariant of the executions in which every call of `ConnectToPostgres` returns the
same failure `R`: the goroutine stays in its loop, every attempt is logged as `R`, each one
is followed by a pause of `retry`, and a result is returned only from the timeout branch. -/
def FailInv (cfg : Config) (R : ConnectResult) (s : State) : Prop :=
  (s.loopPC = .check ∨ s.loopPC = .attempt ∨ s.loopPC = .sleep) ∧
  s.db = none ∧
  s.giveUpClosed = false ∧
  (s.connectionError = none ∨ s.connectionError = R.err) ∧
  (∃ n, s.attemptLog = List.replicate n R ∧
    s.pauses = List.replicate (n - (if s.loopPC = .sleep then 1 else 0)) cfg.retry ∧
    (s.loopPC = .sleep → 0 < n)) ∧
  (s.callerPC = .select ∨
    (s.timerFired = true ∧ (s.callerPC = .timedOut ∨ s.callerPC = .returned))) ∧
  (∀ r, s.result = some r →
    s.timerFired = true ∧ r.1 = none ∧
      (r.2 = none ∨ r.2 = Wrapf R.err (timeoutMessage cfg)))

theorem FailInv_init (cfg : Config) (R : ConnectResult) : FailInv cfg R State.init := by
  refine ⟨Or.inl rfl, rfl, rfl, Or.inl rfl, ⟨0, rfl, rfl, ?_⟩, Or.inl rfl, ?_⟩
  · simp [State.init]
  · simp [State.init]

theorem FailInv_step (cfg : Config) (R : ConnectResult)
    (hR : ∀ w, ConnectToPostgres cfg.ParseURL w cfg.connectionString = R)
    (hdb : R.db = none) (herr : R.err ≠ none) :
    ∀ e s t, FailInv cfg R s → step cfg e s = some t → FailInv cfg R t := by
  intro e s t hs hst
  obtain ⟨lp, cp, db, ce, gu, tf, res, al, ps⟩ := s
  obtain ⟨hlp, hdb0, hgu, hce, ⟨n, hal, hps, hn⟩, hcp, hres⟩ := hs
  simp only at hlp hdb0 hgu hce hal hps hn hcp hres
  subst hdb0 hgu hal
  have hsome : R.err.isSome = true := by
    cases h : R.err with
    | none => exact absurd h herr
    | some _ => rfl
  cases e with
  | timer =>
    simp only [step] at hst
    split at hst
    · simp at hst
    · simp only [Option.some.injEq] at hst
      subst hst
      refine ⟨hlp, rfl, rfl, hce, ⟨n, rfl, hps, hn⟩, ?_, ?_⟩
      · rcases hcp with h | h
        · exact Or.inl h
        · exact Or.inr ⟨rfl, h.2⟩
      · intro r hr
        exact ⟨rfl, (hres r hr).2⟩
  | loop w =>
    rcases hlp with h | h | h
    · subst h
      simp only [step, Bool.false_eq_true, if_false, Option.some.injEq] at hst
      subst hst
      refine ⟨Or.inr (Or.inl rfl), rfl, rfl, hce, ⟨n, rfl, ?_, ?_⟩, hcp, hres⟩
      · simpa using hps
      · simp
    · subst h
      simp only [step, hR, hsome, if_true, Option.some.injEq] at hst
      subst hst
      refine ⟨Or.inr (Or.inr rfl), hdb, rfl, Or.inr rfl, ⟨n + 1, ?_, ?_, ?_⟩, hcp, hres⟩
      · simp [List.replicate_succ']
      · simpa using hps
      · simp
    · subst h
      simp only [step, Option.some.injEq] at hst
      subst hst
      have hn0 : 0 < n := hn rfl
      refine ⟨Or.inl rfl, rfl, rfl, hce, ⟨n, rfl, ?_, ?_⟩, hcp, hres⟩
      · simp only [if_true] at hps
        simp only [hps, reduceCtorEq, if_false, Nat.sub_zero]
        rw [← List.replicate_succ']
        congr 1
        omega
      · simp
  | recvTimeout =>
    simp only [step] at hst
    split at hst
    · rename_i hc
      simp only [Option.some.injEq] at hst
      subst hst
      refine ⟨hlp, rfl, rfl, hce, ⟨n, rfl, hps, hn⟩, Or.inr ⟨hc.2, Or.inl rfl⟩, hres⟩
    · simp at hst
  | recvConnected =>
    simp only [step] at hst
    split at hst
    · rename_i hc
      rcases hlp with h | h | h <;> simp [h] at hc
    · simp at hst
  | caller =>
    rcases hcp with h | ⟨htf, h | h⟩
    · subst h
      simp [step] at hst
    · subst h
      simp only [step, Option.some.injEq] at hst
      subst hst
      refine ⟨hlp, rfl, rfl, hce, ⟨n, rfl, hps, hn⟩, Or.inr ⟨htf, Or.inr rfl⟩, ?_⟩
      intro r hr
      simp only [Option.some.injEq] at hr
      subst hr
      refine ⟨htf, rfl, ?_⟩
      rcases hce with h | h
      · left; simp [h, Wrapf]
      · right; simp [h]
    · subst h
      simp [step] at hst

theorem FailInv_run (cfg : Config) (R : ConnectResult)
    (hR : ∀ w, ConnectToPostgres cfg.ParseURL w cfg.connectionString = R)
    (hdb : R.db = none) (herr : R.err ≠ none) (es : List Event) (s : State)
    (h : run cfg es State.init = some s) : FailInv cfg R s :=
  run_invariant cfg (FailInv cfg R) (FailInv_step cfg R hR hdb herr) es State.init s
    (FailInv_init cfg R) h

/-! ## The connection strings that never connect -/

/-- What every attempt returns for the empty connection string. -/
def missingResult : ConnectResult :=
  { db := none, err := some (Errorf "missing connectionString"), calls := [] }

/-- What every attempt returns for a string that `pg.ParseURL` rejects with `e`. -/
def parseFailure (connectionString : String) (e : ForeignError) : ConnectResult :=
  { db := none,
    err := some (.withStack (.withMessage (.foreign e)
      ("connecting to postgres with connection string: " ++ connectionString))),
    calls := [.ParseURL connectionString] }

theorem FailInv_summary (cfg : Config) (R : ConnectResult) (s : State)
    (h : FailInv cfg R s) :
    (∀ w, (step cfg (.loop w) s).isSome = true) ∧
    s.giveUpClosed = false ∧
    (∀ r ∈ s.attemptLog, r = R) ∧
    s.pauses =
      List.replicate (s.attempts - (if s.loopPC = .sleep then 1 else 0)) cfg.retry ∧
    (∀ r, s.result = some r →
      s.timerFired = true ∧ r.1 = none ∧
        (r.2 = none ∨ r.2 = Wrapf R.err (timeoutMessage cfg))) := by
  obtain ⟨hlp, -, hgu, -, ⟨n, hal, hps, -⟩, -, hres⟩ := h
  refine ⟨?_, hgu, ?_, ?_, hres⟩
  · intro w
    rcases hlp with h | h | h <;> simp [step, h, hgu]
  · intro r hr
    rw [hal] at hr
    exact List.eq_of_mem_replicate hr
  · have : s.attempts = n := by simp [State.attempts, hal]
    rw [this]
    exact hps

/-- Claim C1, as amended. With the empty connection string `ConnectToPostgresTimeout`
retries like after any failure, until the timer fires: while the caller waits at its
`select` the goroutine always has a next step, every attempt made returned the error
"missing connectionString" without a call into go-pg, every such attempt is followed by a
`time.Sleep(retry)`, and a result is returned only after the timer has fired: a nil handle,
with an error that, when non-nil, is the timeout error wrapping "missing connectionString". -/
theorem empty_string_retries_until_timeout (cfg : Config)
    (hcs : cfg.connectionString = "") (es : List Event) (s : State)
    (h : run cfg es State.init = some s) :
    (s.callerPC = .select → ∀ w, (step cfg (.loop w) s).isSome = true) ∧
    (∀ r ∈ s.attemptLog, r = missingResult) ∧
    s.pauses =
      List.replicate (s.attempts - (if s.loopPC = .sleep then 1 else 0)) cfg.retry ∧
    (∀ r, s.result = some r →
      s.timerFired = true ∧ r.1 = none ∧
        (r.2 = none ∨
          r.2 = some (.withStack (.withMessage (Errorf "missing connectionString")
            (timeoutMessage cfg))))) := by
  have hR : ∀ w, ConnectToPostgres cfg.ParseURL w cfg.connectionString = missingResult := by
    intro w
    simp [ConnectToPostgres, hcs, missingResult]
  have hinv := FailInv_run cfg missingResult hR rfl (by simp [missingResult]) es s h
  obtain ⟨h1, -, h3, h4, h5⟩ := FailInv_summary cfg missingResult s hinv
  refine ⟨fun _ => h1, h3, h4, ?_⟩
  simpa [missingResult, Wrapf] using h5

/-- Claim C2, as amended. With a non-empty connection string that `pg.ParseURL` rejects,
`ConnectToPostgresTimeout` retries like after any failure: in every reachable state the
goroutine can take a next step and `giveUp` is open, every attempt made called `pg.ParseURL`
again and returned its error wrapped with the connection string, every such attempt is
followed by a `time.Sleep(retry)`, and a result is returned only after the timer has fired:
a nil handle, with an error that, when non-nil, is the timeout error wrapping that wrapped
parse error. -/
theorem rejected_string_retries_until_timeout (cfg : Config) (e : ForeignError)
    (hcs : cfg.connectionString ≠ "")
    (hp : cfg.ParseURL cfg.connectionString = .error e) (es : List Event) (s : State)
    (h : run cfg es State.init = some s) :
    (∀ w, (step cfg (.loop w) s).isSome = true) ∧
    s.giveUpClosed = false ∧
    (∀ r ∈ s.attemptLog, r = parseFailure cfg.connectionString e) ∧
    s.pauses =
      List.replicate (s.attempts - (if s.loopPC = .sleep then 1 else 0)) cfg.retry ∧
    (∀ r, s.result = some r →
      s.timerFired = true ∧ r.1 = none ∧
        (r.2 = none ∨
          r.2 = some (.withStack (.withMessage
            (.withStack (.withMessage (.foreign e)
              ("connecting to postgres with connection string: " ++ cfg.connectionString)))
            (timeoutMessage cfg))))) := by
  have hR : ∀ w, ConnectToPostgres cfg.ParseURL w cfg.connectionString =
      parseFailure cfg.connectionString e := by
    intro w
    simp [ConnectToPostgres, hcs, hp, parseFailure, Wrap]
  have hinv := FailInv_run cfg (parseFailure cfg.connectionString e) hR rfl
    (by simp [parseFailure]) es s h
  simpa [parseFailure, Wrapf] using
    FailInv_summary cfg (parseFailure cfg.connectionString e) s hinv

/-- The schedule of the examples: two attempts with the pause between them, then the timer
fires and the caller takes the timeout branch and returns. -/
def twoAttemptsThenTimeout : List Event :=
  [.loop (worldUp 0), .loop (worldUp 0), .loop (worldUp 0), .loop (worldUp 1),
    .loop (worldUp 1), .timer, .recvTimeout, .caller]

/-- Claim C1 fails on the code: with the empty connection string, five seconds of timeout
and one second of pause there is an execution with two calls of `ConnectToPostgres` and a
pause between them, which returns only after the timer fired, with the timeout error. -/
theorem empty_string_is_retried :
    ∃ s, run (sampleConfig "") twoAttemptsThenTimeout State.init = some s ∧
      s.attempts = 2 ∧ s.pauses = [1000000000] ∧ s.timerFired = true ∧
      s.result = some (none, some (.withStack (.withMessage
        (.fundamental "missing connectionString") "timeout 5s connecting to db"))) :=
  ⟨_, rfl, by decide, by decide, by decide, by decide⟩

theorem empty_string_retries_until_timeout_witness :
    ∃ s, run (sampleConfig "") twoAttemptsThenTimeout State.init = some s ∧
      (∀ r ∈ s.attemptLog, r = missingResult) ∧
      s.pauses =
        List.replicate (s.attempts - (if s.loopPC = .sleep then 1 else 0)) 1000000000 :=
  ⟨_, rfl,
    (empty_string_retries_until_timeout (sampleConfig "") rfl twoAttemptsThenTimeout _ rfl).2.1,
    (empty_string_retries_until_timeout (sampleConfig "") rfl twoAttemptsThenTimeout _
      rfl).2.2.1⟩

/-- Claim C2 fails on the code: with a string that `pg.ParseURL` rejects there is an
execution with two calls of `ConnectToPostgres` and a pause between them, and the caller
receives the timeout error (around the parse error), after the timer fired. -/
theorem rejected_string_is_retried :
    ∃ s, run (sampleConfig "mysql://db") twoAttemptsThenTimeout State.init = some s ∧
      s.attempts = 2 ∧ s.pauses = [1000000000] ∧ s.timerFired = true ∧
      s.result = some (none, some (.withStack (.withMessage
        (.withStack (.withMessage (.foreign ⟨"pg: invalid scheme"⟩)
          "connecting to postgres with connection string: mysql://db"))
        "timeout 5s connecting to db"))) :=
  ⟨_, rfl, by decide, by decide, by decide, by decide⟩

theorem rejected_string_retries_until_timeout_witness :
    ∃ s, run (sampleConfig "mysql://db") twoAttemptsThenTimeout State.init = some s ∧
      s.giveUpClosed = false ∧
      (∀ r ∈ s.attemptLog, r = parseFailure "mysql://db" ⟨"pg: invalid scheme"⟩) :=
  ⟨_, rfl,
    (rejected_string_retries_until_timeout (sampleConfig "mysql://db")
      ⟨"pg: invalid scheme"⟩ (by decide) rfl twoAttemptsThenTimeout _ rfl).2.1,
    (rejected_string_retries_until_timeout (sampleConfig "mysql://db")
      ⟨"pg: invalid scheme"⟩ (by decide) rfl twoAttemptsThenTimeout _ rfl).2.2.1⟩

/-! ## The timeout branch -/

/-- Claim C3, the code at the failing input. When the timer fires before the first attempt
has returned (a timeout of zero, say), `connectionError` is still nil, `errors.Wrapf` of nil
is nil, and `ConnectToPostgresTimeout` returns a nil handle with a nil error; the same
happens when an attempt succeeds between the timer branch being taken and line 111. -/
theorem timeout_with_nil_cause_returns_nil_nil (cfg : Config) :
    (run cfg [.timer, .recvTimeout, .caller] State.init).map (fun s => s.result) =
      some (some (none, none)) ∧
    (run { sampleConfig "postgres://db" with timeout := 0 }
        [.timer, .recvTimeout, .caller] State.init).map
        (fun s => (s.attempts, s.result)) = some (0, some (none, none)) ∧
    (run (sampleConfig "postgres://db")
        [.timer, .recvTimeout, .loop (worldUp 0), .loop (worldUp 0), .caller]
        State.init).map (fun s => (s.loopPC, s.result)) =
      some (.send, some (none, none)) :=
  ⟨rfl, by decide, by decide⟩

/-- Claim C4, the code at the failing input. After `ConnectToPostgresTimeout` has returned
from the timeout branch `giveUp` is not closed, and the goroutine goes on: its next two
steps make a call of `ConnectToPostgres`, so that the number of attempts increases in a
state where the caller has returned. -/
theorem attempts_increase_after_timeout_return (cfg : Config) (w : PgWorld) :
    ∃ s t, run cfg [.timer, .recvTimeout, .caller] State.init = some s ∧
      s.callerPC = .returned ∧ s.result.isSome = true ∧ s.giveUpClosed = false ∧
      s.attempts = 0 ∧
      run cfg [.loop w, .loop w] s = some t ∧
      t.callerPC = .returned ∧ t.giveUpClosed = false ∧ t.attempts = 1 :=
  ⟨_, _, rfl, rfl, rfl, rfl, rfl, rfl, rfl, rfl, rfl⟩

/-! ## The invariant of all executions -/

/-- What holds once an attempt has succeeded: the log is a run of failures and then the
success, the shared `db` is the handle of that success, `connectionError` is nil, and one
pause of `retry` was taken after each failure. -/
def Succeeded (cfg : Config) (s : State) : Prop :=
  ∃ fails last, s.attemptLog = fails ++ [last] ∧ (∀ f ∈ fails, f.err ≠ none) ∧
    last.err = none ∧ last.db ≠ none ∧ s.db = last.db ∧ s.connectionError = none ∧
    s.pauses = List.replicate fails.length cfg.retry

/-- The part of the invariant that follows the goroutine. -/
def LoopInv (cfg : Config) (s : State) : Prop :=
  match s.loopPC with
  | .check => (∀ f ∈ s.attemptLog, f.err ≠ none) ∧
      s.pauses = List.replicate s.attemptLog.length cfg.retry
  | .attempt => (∀ f ∈ s.attemptLog, f.err ≠ none) ∧
      s.pauses = List.replicate s.attemptLog.length cfg.retry
  | .sleep => (∀ f ∈ s.attemptLog, f.err ≠ none) ∧
      s.pauses ++ [cfg.retry] = List.replicate s.attemptLog.length cfg.retry
  | .send => Succeeded cfg s
  | .exited => Succeeded cfg s

/-- The part of the invariant that follows the caller: `giveUp` is closed, and the goroutine
finished, exactly after the `connected` branch; a result exists exactly when the caller has
returned, and it is `(nil, _)` after the timer branch and `(db, nil)` after the other. -/
def CallerInv (s : State) : Prop :=
  match s.callerPC with
  | .select => s.result = none ∧ s.giveUpClosed = false ∧ s.loopPC ≠ .exited
  | .timedOut =>
      s.result = none ∧ s.giveUpClosed = false ∧ s.loopPC ≠ .exited ∧ s.timerFired = true
  | .connected => s.result = none ∧ s.giveUpClosed = false ∧ s.loopPC = .exited
  | .closed => s.result = none ∧ s.giveUpClosed = true ∧ s.loopPC = .exited
  | .returned =>
      (s.giveUpClosed = false ∧ s.loopPC ≠ .exited ∧ s.timerFired = true ∧
        ∃ e, s.result = some (none, e)) ∨
      (s.giveUpClosed = true ∧ s.loopPC = .exited ∧ s.result = some (s.db, none))

/-- The invariant of the executions of `ConnectToPostgresTimeout`. -/
def Inv (cfg : Config) (s : State) : Prop := LoopInv cfg s ∧ CallerInv s

theorem Inv_init (cfg : Config) : Inv cfg State.init := by
  simp [Inv, LoopInv, CallerInv, State.init]

theorem Inv_step (cfg : Config) :
    ∀ e s t, Inv cfg s → step cfg e s = some t → Inv cfg t := by
  intro e s t hs hst
  obtain ⟨lp, cp, db, ce, gu, tf, res, al, ps⟩ := s
  obtain ⟨hl, hc⟩ := hs
  cases e with
  | timer =>
    simp only [step] at hst
    split at hst
    · simp at hst
    · simp only [Option.some.injEq] at hst
      subst hst
      refine ⟨?_, ?_⟩
      · cases lp <;> simpa [LoopInv, Succeeded] using hl
      · cases cp <;> simp_all [CallerInv]
  | loop w =>
    cases lp with
    | check =>
      have hgu : gu = false := by
        cases cp <;> simp_all [CallerInv]
      subst hgu
      simp only [step, Bool.false_eq_true, if_false, Option.some.injEq] at hst
      subst hst
      refine ⟨?_, ?_⟩
      · simpa [LoopInv] using hl
      · cases cp <;> simp_all [CallerInv]
    | attempt =>
      simp only [step, Option.some.injEq] at hst
      subst hst
      simp only [LoopInv] at hl
      cases herr : (ConnectToPostgres cfg.ParseURL w cfg.connectionString).err with
      | none =>
        refine ⟨?_, ?_⟩
        · simp only [LoopInv, herr, Option.isSome_none, Bool.false_eq_true, if_false]
          exact ⟨al, _, rfl, hl.1, herr,
            connect_err_none_db cfg.ParseURL w cfg.connectionString herr, rfl, rfl, hl.2⟩
        · cases cp <;> simp_all [CallerInv]
      | some err =>
        refine ⟨?_, ?_⟩
        · simp only [LoopInv, herr, Option.isSome_some, if_true]
          refine ⟨?_, ?_⟩
          · intro f hf
            rcases List.mem_append.1 hf with h | h
            · exact hl.1 f h
            · simp only [List.mem_singleton] at h
              simp [h, herr]
          · simp [hl.2, List.replicate_succ']
        · cases cp <;> simp_all [CallerInv]
    | sleep =>
      simp only [step, Option.some.injEq] at hst
      subst hst
      refine ⟨?_, ?_⟩
      · simpa [LoopInv] using hl
      · cases cp <;> simp_all [CallerInv]
    | send => simp [step] at hst
    | exited => simp [step] at hst
  | recvTimeout =>
    simp only [step] at hst
    split at hst
    · rename_i h
      simp only [Option.some.injEq] at hst
      subst hst
      obtain ⟨h1, h2⟩ := h
      subst h1
      refine ⟨?_, ?_⟩
      · cases lp <;> simpa [LoopInv, Succeeded] using hl
      · simp_all [CallerInv]
    · simp at hst
  | recvConnected =>
    simp only [step] at hst
    split at hst
    · rename_i h
      simp only [Option.some.injEq] at hst
      subst hst
      obtain ⟨h1, h2⟩ := h
      subst h1 h2
      refine ⟨?_, ?_⟩
      · simpa [LoopInv, Succeeded] using hl
      · simp_all [CallerInv]
    · simp at hst
  | caller =>
    cases cp with
    | select => simp [step] at hst
    | returned => simp [step] at hst
    | timedOut =>
      simp only [step, Option.some.injEq] at hst
      subst hst
      refine ⟨?_, ?_⟩
      · cases lp <;> simpa [LoopInv, Succeeded] using hl
      · simp_all [CallerInv]
    | connected =>
      simp only [step, Option.some.injEq] at hst
      subst hst
      refine ⟨?_, ?_⟩
      · cases lp <;> simpa [LoopInv, Succeeded] using hl
      · simp_all [CallerInv]
    | closed =>
      simp only [step, Option.some.injEq] at hst
      subst hst
      refine ⟨?_, ?_⟩
      · cases lp <;> simpa [LoopInv, Succeeded] using hl
      · simp_all [CallerInv]

theorem Inv_run (cfg : Config) (es : List Event) (s : State)
    (h : run cfg es State.init = some s) : Inv cfg s :=
  run_invariant cfg (Inv cfg) (Inv_step cfg) es State.init s (Inv_init cfg) h

/-! ## A success after the timer branch -/

theorem send_blocked (cfg : Config) (s : State) (hl : s.loopPC = .send)
    (hc : s.callerPC ≠ .select) :
    ∀ (es : List Event) (t : State), run cfg es s = some t →
      t.loopPC = .send ∧ t.callerPC ≠ .select ∧ t.db = s.db ∧
        t.attemptLog = s.attemptLog := by
  intro es t h
  refine run_invariant cfg
    (fun u => u.loopPC = .send ∧ u.callerPC ≠ .select ∧ u.db = s.db ∧
      u.attemptLog = s.attemptLog) ?_ es s t ⟨hl, hc, rfl, rfl⟩ h
  intro e u v hu huv
  obtain ⟨lp, cp, db, ce, gu, tf, res, al, ps⟩ := u
  obtain ⟨h1, h2, h3, h4⟩ := hu
  simp only at h1 h2 h3 h4
  subst h1
  cases e with
  | timer =>
    simp only [step] at huv
    split at huv
    · simp at huv
    · simp only [Option.some.injEq] at huv
      subst huv
      exact ⟨rfl, h2, h3, h4⟩
  | loop w => simp [step] at huv
  | recvTimeout =>
    simp only [step] at huv
    split at huv
    · rename_i hsel
      exact absurd hsel.1 h2
    · simp at huv
  | recvConnected =>
    simp only [step] at huv
    split at huv
    · rename_i hsel
      exact absurd hsel.1 h2
    · simp at huv
  | caller =>
    cases cp <;> simp only [step] at huv
    · simp at huv
    · simp only [Option.some.injEq] at huv
      subst huv
      exact ⟨rfl, by simp, h3, h4⟩
    · simp only [Option.some.injEq] at huv
      subst huv
      exact ⟨rfl, by simp, h3, h4⟩
    · simp only [Option.some.injEq] at huv
      subst huv
      exact ⟨rfl, by simp, h3, h4⟩
    · simp at huv

/-- The schedule of the examples for a late success: a failed attempt and its pause, the
timer, the caller taking the timeout branch and returning, then an attempt that succeeds. -/
def lateSuccess : List Event :=
  [.loop (worldDown 0), .loop (worldDown 0), .loop (worldDown 0), .timer, .recvTimeout,
    .caller, .loop (worldUp 1), .loop (worldUp 1)]

/-- The schedule of the examples for a success between the timer branch and line 111: a
failed attempt and its pause, the timer, the caller taking the timeout branch, an attempt
that succeeds, and then the caller wrapping `connectionError` and returning. -/
def successBeforeWrapf : List Event :=
  [.loop (worldDown 0), .loop (worldDown 0), .loop (worldDown 0), .timer, .recvTimeout,
    .loop (worldUp 1), .loop (worldUp 1), .caller]

/-- Claim C5, the code at the failing input. There is an execution in which the caller has
returned the timeout error, the second attempt has succeeded, and the goroutine stands at
`connected <- true` in every continuation: the send blocks for ever. And there is one in
which the success comes after the timer branch was taken and before line 111: the goroutine
blocks in the same way, and the success has set `connectionError` to nil, so that the
timeout branch returns a nil error with its nil handle. -/
theorem late_success_blocks_forever :
    (∃ s, run (sampleConfig "postgres://db") lateSuccess State.init = some s ∧
      s.callerPC = .returned ∧ s.loopPC = .send ∧ s.giveUpClosed = false ∧
      s.db = some { opt := ⟨"postgres://db", "postgres", "postgres"⟩, ptr := 1 } ∧
      s.result = some (none, some (.withStack (.withMessage
        (.withStack (.foreign ⟨"dial tcp: connection refused"⟩))
        "timeout 5s connecting to db"))) ∧
      ∀ es t, run (sampleConfig "postgres://db") es s = some t → t.loopPC = .send) ∧
    (∃ s, run (sampleConfig "postgres://db") successBeforeWrapf State.init = some s ∧
      s.callerPC = .returned ∧ s.loopPC = .send ∧ s.result = some (none, none) ∧
      ∀ es t, run (sampleConfig "postgres://db") es s = some t → t.loopPC = .send) :=
  ⟨⟨_, rfl, by decide, by decide, by decide, by decide, by decide,
      fun es t h => (send_blocked _ _ (by decide) (by decide) es t h).1⟩,
    ⟨_, rfl, by decide, by decide, by decide,
      fun es t h => (send_blocked _ _ (by decide) (by decide) es t h).1⟩⟩

/-! ## Success received by the caller -/

theorem exited_stable (cfg : Config) :
    ∀ (es : List Event) (s t : State), s.loopPC = .exited → run cfg es s = some t →
      t.loopPC = .exited := by
  refine run_invariant cfg (fun u => u.loopPC = .exited) ?_
  intro e u v hu huv
  obtain ⟨lp, cp, db, ce, gu, tf, res, al, ps⟩ := u
  simp only at hu
  subst hu
  cases e with
  | timer =>
    simp only [step] at huv
    split at huv
    · simp at huv
    · simp only [Option.some.injEq] at huv
      subst huv
      rfl
  | loop w => simp [step] at huv
  | recvTimeout =>
    simp only [step] at huv
    split at huv
    · simp only [Option.some.injEq] at huv
      subst huv
      rfl
    · simp at huv
  | recvConnected => simp [step] at huv
  | caller =>
    cases cp <;> simp only [step] at huv
    · simp at huv
    · simp only [Option.some.injEq] at huv
      subst huv
      rfl
    · simp only [Option.some.injEq] at huv
      subst huv
      rfl
    · simp only [Option.some.injEq] at huv
      subst huv
      rfl
    · simp at huv

theorem exited_of_recvConnected (cfg : Config) :
    ∀ (es : List Event) (s t : State), Event.recvConnected ∈ es → run cfg es s = some t →
      t.loopPC = .exited := by
  intro es
  induction es with
  | nil => intro s t hm; simp at hm
  | cons e es ih =>
    intro s t hm h
    simp only [run] at h
    cases hst : step cfg e s with
    | none => simp [hst] at h
    | some u =>
      rw [hst] at h
      simp only [Option.some_bind] at h
      rcases List.mem_cons.1 hm with he | he
      · subst he
        simp only [step] at hst
        split at hst
        · simp only [Option.some.injEq] at hst
          subst hst
          exact exited_stable cfg es _ t rfl h
        · simp at hst
      · exact ih u t he h

/-- Claim C6 fails on the code: the first attempt succeeds while the timer has not fired,
the timer fires before the caller has received from `connected`, the caller takes the timer
branch, and the call returns a nil handle, `giveUp` being open. -/
theorem success_before_timer_not_returned :
    ∃ s t, run (sampleConfig "postgres://db") [.loop (worldUp 0), .loop (worldUp 0)]
        State.init = some s ∧
      s.timerFired = false ∧ s.loopPC = .send ∧ s.connectionError = none ∧
      s.db = some { opt := ⟨"postgres://db", "postgres", "postgres"⟩, ptr := 0 } ∧
      run (sampleConfig "postgres://db") [.timer, .recvTimeout, .caller] s = some t ∧
      t.callerPC = .returned ∧ t.result = some (none, none) ∧ t.giveUpClosed = false :=
  ⟨_, _, rfl, by decide, by decide, by decide, by decide, rfl, by decide, by decide,
    by decide⟩

/-- Claim C6, as amended. In every execution in which the caller receives the success (its
`select` takes the `connected` branch): the attempts made are a run of failures and then one
success, one pause of `retry` was taken per failure and no other, the shared `db` is the
non-nil handle of that last attempt, the goroutine makes no further step, a result that has
been returned is that handle with a nil error, `giveUp` being closed before; and the caller
does return it, in at most two steps of its own that leave the timer as it is. -/
theorem received_success_returns_handle (cfg : Config) (es : List Event) (s : State)
    (h : run cfg es State.init = some s) (hm : Event.recvConnected ∈ es) :
    (∃ fails last, s.attemptLog = fails ++ [last] ∧ (∀ f ∈ fails, f.err ≠ none) ∧
      last.err = none ∧ last.db ≠ none ∧ s.db = last.db ∧
      s.pauses = List.replicate fails.length cfg.retry) ∧
    (∀ v, step cfg (.loop v) s = none) ∧
    (∀ r, s.result = some r → r = (s.db, none) ∧ s.giveUpClosed = true) ∧
    (∃ n t, n ≤ 2 ∧ run cfg (List.replicate n .caller) s = some t ∧
      t.callerPC = .returned ∧ t.result = some (s.db, none) ∧ t.giveUpClosed = true ∧
      t.timerFired = s.timerFired ∧ t.attemptLog = s.attemptLog ∧
      t.pauses = s.pauses) := by
  have hex := exited_of_recvConnected cfg es State.init s hm h
  obtain ⟨hli, hci⟩ := Inv_run cfg es s h
  have hsucc : Succeeded cfg s := by simpa [LoopInv, hex] using hli
  refine ⟨?_, ?_, ?_, ?_⟩
  · obtain ⟨fails, last, h1, h2, h3, h4, h5, -, h7⟩ := hsucc
    exact ⟨fails, last, h1, h2, h3, h4, h5, h7⟩
  · intro v
    simp [step, hex]
  · intro r hr
    unfold CallerInv at hci
    cases hcp : s.callerPC <;> simp_all
  · obtain ⟨lp, cp, db, ce, gu, tf, res, al, ps⟩ := s
    simp only at hex
    subst hex
    unfold CallerInv at hci
    cases cp with
    | select => simp at hci
    | timedOut => simp at hci
    | connected =>
      exact ⟨2, _, le_refl 2, rfl, rfl, rfl, rfl, rfl, rfl, rfl⟩
    | closed =>
      exact ⟨1, _, by omega, rfl, rfl, rfl, by simpa using hci.2.1, rfl, rfl, rfl⟩
    | returned =>
      simp only [reduceCtorEq, not_true_eq_false, false_and, and_false, true_and,
        false_or, ne_eq] at hci
      exact ⟨0, _, by omega, rfl, rfl, hci.2, hci.1, rfl, rfl, rfl⟩

/-- The schedule of the examples for a success: a failed attempt and its pause, an attempt
that succeeds, and the caller receiving from `connected`. -/
def successReceived : List Event :=
  [.loop (worldDown 0), .loop (worldDown 0), .loop (worldDown 0), .loop (worldUp 1),
    .loop (worldUp 1), .recvConnected]

theorem received_success_returns_handle_witness :
    ∃ s, run (sampleConfig "postgres://db") successReceived State.init = some s ∧
      Event.recvConnected ∈ successReceived ∧
      s.db = some { opt := ⟨"postgres://db", "postgres", "postgres"⟩, ptr := 1 } ∧
      s.pauses = [1000000000] ∧
      ∃ n t, n ≤ 2 ∧ run (sampleConfig "postgres://db") (List.replicate n .caller) s =
          some t ∧
        t.callerPC = .returned ∧ t.result = some (s.db, none) ∧ t.giveUpClosed = true ∧
        t.timerFired = s.timerFired ∧ t.attemptLog = s.attemptLog ∧ t.pauses = s.pauses :=
  ⟨_, rfl, by simp [successReceived], by decide, by decide,
    (received_success_returns_handle (sampleConfig "postgres://db") successReceived _ rfl
      (by simp [successReceived])).2.2.2⟩

end TimeoutCancel
